import Mathlib

/-!
# Verification of `src/extract_banknifty_span.py`

A shallow embedding of the SPAN risk-file extractor. XML elements become the
inductive `XNode`; Python floats are modelled as exact rationals (`ℚ`); the
builtin `float(str)` is modelled by `pyFloatCs` covering finite decimal
literals (optional surrounding whitespace, sign, digits with optional decimal
point, optional exponent); `inf`/`nan` and digit-group underscores are treated
as unparsable, and Python's object-identity parent lookup is modelled with
structural equality — both faithful on the inputs at issue here. Records'
exposure/total dictionaries are modelled as ordered label/value pair lists
(identical to the Python dict whenever the configured rates have distinct
labels, as the shipped configuration does).
-/

namespace SpanExtract

/-- An XML element as seen by `xml.etree.ElementTree`: a tag, optional text
content, and an ordered list of child elements. -/
inductive XNode where
  | mk (tag : String) (text : Option String) (children : List XNode)

mutual

def decEqX : (a b : XNode) → Decidable (a = b)
  | .mk t x c, .mk t' x' c' =>
    if h1 : t = t' then
      if h2 : x = x' then
        match decEqXs c c' with
        | isTrue h3 => isTrue (by rw [h1, h2, h3])
        | isFalse h3 => isFalse (fun h => XNode.noConfusion h (fun _ _ hc => h3 hc))
      else isFalse (fun h => XNode.noConfusion h (fun _ hx _ => h2 hx))
    else isFalse (fun h => XNode.noConfusion h (fun ht _ _ => h1 ht))

def decEqXs : (as bs : List XNode) → Decidable (as = bs)
  | [], [] => isTrue rfl
  | [], _ :: _ => isFalse (fun h => List.noConfusion h)
  | _ :: _, [] => isFalse (fun h => List.noConfusion h)
  | a :: as, b :: bs =>
    match decEqX a b, decEqXs as bs with
    | isTrue h1, isTrue h2 => isTrue (by rw [h1, h2])
    | isFalse h1, _ => isFalse (fun h => List.noConfusion h (fun hh _ => h1 hh))
    | _, isFalse h2 => isFalse (fun h => List.noConfusion h (fun _ ht => h2 ht))

end

instance : DecidableEq XNode := decEqX

namespace XNode

def tag : XNode → String
  | .mk t _ _ => t

def text : XNode → Option String
  | .mk _ x _ => x

def children : XNode → List XNode
  | .mk _ _ c => c

end XNode

mutual

/-- All strict descendants of a node, in document (preorder) order: the node
sequence produced by `elem.iter()` minus the element itself, hence the result
of `elem.findall(".//tag")` before tag filtering. -/
def descendants : XNode → List XNode
  | .mk _ _ cs => descendantsList cs

def descendantsList : List XNode → List XNode
  | [] => []
  | c :: cs => c :: (descendants c ++ descendantsList cs)

end

/-- Model of `elem.iter()`: the element itself followed by its descendants, preorder. -/
def iterNodes (n : XNode) : List XNode :=
  n :: descendants n

/-- Model of `elem.find(tag)` for a plain tag: first direct child with that tag. -/
def findChild (n : XNode) (t : String) : Option XNode :=
  n.children.find? (fun c => c.tag == t)

/-- Model of `elem.findall(tag)` for a plain tag: all direct children with that tag. -/
def findallDirect (n : XNode) (t : String) : List XNode :=
  n.children.filter (fun c => c.tag == t)

/-- Model of `elem.findtext(tag)`: `none` when no matching child exists, otherwise the
child's text, with `""` substituted when the child has no text content. -/
def findtext (n : XNode) (t : String) : Option String :=
  (findChild n t).map (fun c => c.text.getD "")

/-- Model of `get_parent(root_elem, child_elem)` (source lines 66–72): scan `root.iter()`
and return the first node having the target among its direct children. -/
def get_parent (root child : XNode) : Option XNode :=
  (iterNodes root).find? (fun p => p.children.any (fun c => c == child))

/-- Python `str.strip()` on a character list. -/
def pyStrip (cs : List Char) : List Char :=
  ((cs.dropWhile Char.isWhitespace).reverse.dropWhile Char.isWhitespace).reverse

/-- Python `str.strip()` on a `String`. -/
def stripS (s : String) : String :=
  String.mk (pyStrip s.toList)

/-- Python `str.upper()` (ASCII as used here). -/
def upperS (s : String) : String :=
  String.mk (s.toList.map Char.toUpper)

/-- Python `str.lower()` (ASCII as used here). -/
def lowerS (s : String) : String :=
  String.mk (s.toList.map Char.toLower)

/-- The value of a digit run, most significant first. -/
def natOfDigits (ds : List Char) : Nat :=
  ds.foldl (fun n c => 10 * n + (c.toNat - 48)) 0

/-- Multiply a rational by `10^e` for a signed exponent `e`. -/
def applyExp (q : ℚ) (e : ℤ) : ℚ :=
  if 0 ≤ e then q * 10 ^ e.toNat else q / 10 ^ (-e).toNat

/-- Python `float(s)` on a character list, for finite decimal literals:
optional whitespace, optional sign, a mantissa with at least one digit
(`"1."`, `".5"`, `"1.5"`, `"15"`), and an optional `e`/`E` exponent with
optional sign and mandatory digits.  `inf`/`nan` and underscore digit
grouping are treated as unparsable (they do not occur in the data at issue).
Returns `none` exactly when Python raises `ValueError`. -/
def pyFloatCs (s : List Char) : Option ℚ :=
  let cs := pyStrip s
  let (neg, cs₁) :=
    match cs with
    | '+' :: rest => (false, rest)
    | '-' :: rest => (true, rest)
    | rest => (false, rest)
  let ip := cs₁.takeWhile Char.isDigit
  let cs₂ := cs₁.dropWhile Char.isDigit
  let (fp, cs₃) :=
    match cs₂ with
    | '.' :: rest => (rest.takeWhile Char.isDigit, rest.dropWhile Char.isDigit)
    | rest => ([], rest)
  if ip.isEmpty && fp.isEmpty then none
  else
    match cs₃ with
    | [] =>
        let mant : ℚ := (natOfDigits ip : ℚ) + (natOfDigits fp : ℚ) / (10 : ℚ) ^ fp.length
        some (if neg then -mant else mant)
    | e :: rest =>
        if e == 'e' || e == 'E' then
          let (eneg, rest₁) :=
            match rest with
            | '+' :: r => (false, r)
            | '-' :: r => (true, r)
            | r => (false, r)
          let eds := rest₁.takeWhile Char.isDigit
          let rest₂ := rest₁.dropWhile Char.isDigit
          if eds.isEmpty || !rest₂.isEmpty then none
          else
            let ex : ℤ := if eneg then -(natOfDigits eds : ℤ) else (natOfDigits eds : ℤ)
            let mant : ℚ := (natOfDigits ip : ℚ) + (natOfDigits fp : ℚ) / (10 : ℚ) ^ fp.length
            let v := applyExp mant ex
            some (if neg then -v else v)
        else none

/-- Model of `safe_float` (source lines 74–78): `float(x)` with failures mapped to
`None`. -/
def safe_float (s : String) : Option ℚ :=
  pyFloatCs s.toList

/-- The constant `SYMBOL` (source line 33). -/
def SYMBOL : String := "BANKNIFTY"

/-- The constant `EXPOSURE_RATES` (source line 36), floats modelled as exact rationals. -/
def EXPOSURE_RATES : List ℚ := [0.02, 0.02265]

/-- The constant `FALLBACK_LOT` (source line 39). -/
def FALLBACK_LOT : ℤ := 35

/-- Python `int(q)` on a float: truncation toward zero. -/
def pyInt (q : ℚ) : ℤ :=
  q.num.tdiv (q.den : ℤ)

/-- The characters kept by the retry filter (source line 189). -/
def allowedChars : List Char := "0123456789-+.eE".toList

/-- Coercion of one raw `<a>` text (source lines 181–193): skip a missing
text; strip and remove thousands separators; `float` it; on failure keep only
characters from `"0123456789-+.eE"` and retry; on repeated failure drop the
value. -/
def coerceVal : Option String → Option ℚ
  | none => none
  | some v =>
    let vclean := (pyStrip v.toList).filter (fun c => c ≠ ',')
    match pyFloatCs vclean with
    | some x => some x
    | none => pyFloatCs (vclean.filter (fun c => allowedChars.contains c))

/-- The coerced scenario array `a_vals` built from the raw `<a>` texts. -/
def coerceValues (raws : List (Option String)) : List ℚ :=
  raws.filterMap coerceVal

/-- Rendering of the label percentage, Python `int` of `r*10000` over 100 with four
formatted decimals: the percentage of a rate truncated to two
decimals and rendered with four decimal places.  Exact-rational rendering of
`int(r*10000)/100` agrees with the binary-float rendering for every rate of
realistic magnitude, the truncated value having at most two fractional
digits. -/
def pad2 (n : Nat) : String :=
  if n < 10 then "0" ++ toString n else toString n

def fmtPct (n : ℤ) : String :=
  (if n < 0 then "-" else "") ++ toString (n.natAbs / 100) ++ "." ++ pad2 (n.natAbs % 100) ++ "00"

/-- Exposure column label for a rate (source line 207). -/
def expLabel (r : ℚ) : String :=
  "exposure_" ++ fmtPct (pyInt (r * 10000)) ++ "_pct"

/-- Total column label for a rate (source line 208). -/
def totLabel (r : ℚ) : String :=
  "total_" ++ fmtPct (pyInt (r * 10000)) ++ "_pct"

/-- One output row (source lines 210–224).  Exposure/total dictionaries are
modelled as label/value pair lists in configured rate order. -/
structure DerivedRecord where
  expiry_raw : String
  expiry : String
  strike : Option ℚ
  type : String
  premium_in_rpf : Option ℚ
  delta_in_rpf : Option ℚ
  worst_RA_per_unit : ℚ
  span_per_lot : ℚ
  spot_from_rpf : Option ℚ
  lot_size : ℤ
  notional : Option ℚ
  exposures : List (String × Option ℚ)
  totals : List (String × Option ℚ)
deriving DecidableEq

/-- Expiry normalization (source lines 161–165): an 8-digit raw expiry is
hyphenated as `YYYY-MM-DD`; anything else is kept unchanged.  Python's
`str.isdigit` is modelled on ASCII digits, the only ones the date format
uses. -/
def normalizeExpiry (raw : String) : String :=
  if raw.toList.all Char.isDigit && raw.toList.length == 8 then
    String.mk (raw.toList.take 4) ++ "-" ++ String.mk ((raw.toList.drop 4).take 2)
      ++ "-" ++ String.mk ((raw.toList.drop 6).take 2)
  else raw

/-- The coerced scenario values of one `<opt>` node: empty when the `<ra>`
child is missing. -/
def optValues (opt : XNode) : List ℚ :=
  match findChild opt "ra" with
  | none => []
  | some ra => coerceValues ((findallDirect ra "a").map XNode.text)

/-- The minimum of a value list, `none` when empty (Python `min`). -/
def listMin : List ℚ → Option ℚ
  | [] => none
  | h :: t => some (t.foldl min h)

/-- Derivation of one option's record (source lines 167–225): skip when `<ra>`
is missing or no scenario value survives coercion, else compute worst loss,
margin base, notional and per-rate exposures/totals. -/
def deriveOpt (spot : Option ℚ) (lot : ℤ) (rates : List ℚ)
    (expiry_raw expiry : String) (opt : XNode) : Option DerivedRecord :=
  let typ := stripS ((findtext opt "o").getD "")
  let strike := safe_float (stripS ((findtext opt "k").getD ""))
  let premium := safe_float ((findtext opt "p").getD "")
  let delta := safe_float ((findtext opt "d").getD "")
  match findChild opt "ra" with
  | none => none
  | some ra =>
    match coerceValues ((findallDirect ra "a").map XNode.text) with
    | [] => none
    | v :: vs =>
      let worst := vs.foldl min v
      let worst_per_unit := |worst|
      let span_per_lot := worst_per_unit * (lot : ℚ)
      let notional := spot.map (fun s => s * (lot : ℚ))
      some
        { expiry_raw := expiry_raw
          expiry := expiry
          strike := strike
          type := typ
          premium_in_rpf := premium
          delta_in_rpf := delta
          worst_RA_per_unit := worst_per_unit
          span_per_lot := span_per_lot
          spot_from_rpf := spot
          lot_size := lot
          notional := notional
          exposures := rates.map (fun r => (expLabel r, notional.map (fun n => n * r)))
          totals := rates.map (fun r => (totLabel r, notional.map (fun n => span_per_lot + n * r))) }

/-- The raw expiry text of a `<series>` node (source line 161). -/
def seriesExpiryRaw (s : XNode) : String :=
  stripS ((findtext s "pe").getD "")

/-- The records of one `<series>` node, document order (source lines 160–229). -/
def seriesRecords (spot : Option ℚ) (lot : ℤ) (rates : List ℚ) (s : XNode) :
    List DerivedRecord :=
  (findallDirect s "opt").filterMap
    (deriveOpt spot lot rates (seriesExpiryRaw s) (normalizeExpiry (seriesExpiryRaw s)))

/-- The lot-size alias candidates (source line 137): the texts of the first
`m`, `mult`, `mktLot`, `lotSize`, `lot`, `sc`, `l` children that exist. -/
def lot_candidates (phy_node : XNode) : List String :=
  ["m", "mult", "mktLot", "lotSize", "lot", "sc", "l"].filterMap (findtext phy_node)

/-- The candidate loop (source lines 139–147): the first non-empty candidate
that parses as a positive integer triggers `lot_size = 35` — the parsed value
`val` is computed and then discarded in favour of the constant. -/
def inferLot (phy_node : XNode) : Option ℤ :=
  (lot_candidates phy_node).findSome? (fun cand =>
    if cand = "" then none
    else
      match safe_float cand with
      | none => none
      | some q => if 0 < pyInt q then some 35 else none)

/-- The `<phy>` entry of the underlying portfolio, when that portfolio was
located (source line 132). -/
def phyNodeOf (phy_pf : Option XNode) : Option XNode :=
  phy_pf.bind (fun p => findChild p "phy")

/-- Resolved spot (source lines 130–135). -/
def spotOf (phy_pf : Option XNode) : Option ℚ :=
  (phyNodeOf phy_pf).bind (fun n => safe_float ((findtext n "p").getD ""))

/-- Resolved lot size after the fallback (source lines 129–151): never null. -/
def lotSize (phy_pf : Option XNode) : ℤ :=
  ((phyNodeOf phy_pf).bind inferLot).getD FALLBACK_LOT

/-- Record extraction from the located portfolios (source lines 129–229):
fatal error when the options portfolio has no direct `<series>` children,
else the concatenated per-series record lists. -/
def extractRecords (oop_pf : XNode) (phy_pf : Option XNode) (rates : List ℚ) :
    Except String (List DerivedRecord) :=
  let spot := spotOf phy_pf
  let lot := lotSize phy_pf
  let series := findallDirect oop_pf "series"
  if series.isEmpty then
    .error "No <series> nodes found under BANKNIFTY oopPf"
  else
    .ok (series.flatMap (seriesRecords spot lot rates))

/-- Model of `bank_pf_parents` (source lines 92–98): the structural parents of every
`pfCode` descendant whose trimmed, uppercased text equals the symbol. -/
def bank_pf_parents (clearing : XNode) : List XNode :=
  ((descendants clearing).filter (fun n => n.tag == "pfCode")).filterMap
    (fun pf =>
      if upperS (stripS (pf.text.getD "")) = SYMBOL then get_parent clearing pf
      else none)

/-- The first two selection strategies (source lines 100–108): pick the
parent candidates tagged `oopPf`/`phyPf` case-insensitively, then fall back
to a direct case-sensitive descendant search for each still-missing block. -/
def locatePre (clearing : XNode) : Option XNode × Option XNode :=
  let ps := bank_pf_parents clearing
  let oop0 := ps.find? (fun n => lowerS n.tag == "ooppf")
  let phy0 := ps.find? (fun n => lowerS n.tag == "phypf")
  (oop0.or ((descendants clearing).find? (fun n => n.tag == "oopPf")),
   phy0.or ((descendants clearing).find? (fun n => n.tag == "phyPf")))

/-- Does a direct child of the clearing node match the symbol by its own
`pfCode` field (source lines 115–116)? -/
def childMatches (p : XNode) : Bool :=
  upperS (stripS ((findtext p "pfCode").getD "")) == SYMBOL

/-- The child-scan fallback (source lines 110–121).  `found_op` is initialised
to `None` and never assigned, so its guard is always true: every matching
child with a `series` child overwrites the options slot, and every matching
child without `series` but with a `phy` child overwrites the underlying
slot. -/
def childScan (clearing : XNode) (st : Option XNode × Option XNode) :
    Option XNode × Option XNode :=
  clearing.children.foldl
    (fun st p =>
      if childMatches p then
        if (findChild p "series").isSome then (some p, st.2)
        else if (findChild p "phy").isSome then (st.1, some p)
        else st
      else st)
    st

/-- Full portfolio location (source lines 92–121): the child scan runs exactly
when the options or the underlying portfolio is still unresolved. -/
def locate (clearing : XNode) : Option XNode × Option XNode :=
  let st := locatePre clearing
  if st.1.isNone || st.2.isNone then childScan clearing st else st

/-- The fixed CSV columns (source lines 232–235). -/
def baseFieldnames : List String :=
  ["expiry_raw", "expiry", "strike", "type", "premium_in_rpf", "delta_in_rpf",
   "worst_RA_per_unit", "span_per_lot", "spot_from_rpf", "lot_size", "notional"]

/-- The full CSV header (source lines 232–241): the fixed columns followed by
an exposure and a total column per configured rate, in configured order. -/
def fieldnames (rates : List ℚ) : List String :=
  baseFieldnames ++ rates.flatMap (fun r => [expLabel r, totLabel r])

/-- Does `sub` occur at the start of `cs`? -/
def startsWithCs : List Char → List Char → Bool
  | _, [] => true
  | [], _ :: _ => false
  | c :: cs, d :: ds => c == d && startsWithCs cs ds

/-- Does `sub` occur anywhere inside `cs` (contiguously)? -/
def occursIn (sub : List Char) : List Char → Bool
  | [] => sub.isEmpty
  | c :: cs => startsWithCs (c :: cs) sub || occursIn sub cs

/-- Predicate: `m` is a minimum of the list `l`. -/
def isMinOf (m : ℚ) (l : List ℚ) : Prop :=
  m ∈ l ∧ ∀ x ∈ l, m ≤ x

instance (m : ℚ) (l : List ℚ) : Decidable (isMinOf m l) := by
  unfold isMinOf; infer_instance

/-! ### Concrete fixtures

The option node of the spec's worked example: scenario values
`[-120.0, 50.0, -300.5, 75.0]`, lot size 35, spot 48000, one exposure rate
of 2%. -/

/-- A `<a>` scenario-value leaf. -/
def aN (t : String) : XNode := .mk "a" (some t) []

/-- The worked-example `<opt>` node. -/
def optEx : XNode :=
  .mk "opt" none
    [.mk "o" (some "C") [], .mk "k" (some "48000") [], .mk "p" (some "10.5") [],
     .mk "d" (some "0.4") [],
     .mk "ra" none [aN "-120.0", aN "50.0", aN "-300.5", aN "75.0"]]

/-- An `<opt>` node with no `<ra>` child. -/
def optNoRa : XNode :=
  .mk "opt" none [.mk "o" (some "P") [], .mk "k" (some "47000") []]

/-- An `<opt>` node whose scenario array is entirely unparsable. -/
def optAllBad : XNode :=
  .mk "opt" none
    [.mk "o" (some "P") [], .mk "k" (some "47000") [],
     .mk "ra" none [aN "N/A", aN "xyz"]]

/-- A `<series>` node holding the three example options. -/
def seriesEx : XNode :=
  .mk "series" none [.mk "pe" (some "20250828") [], optEx, optNoRa, optAllBad]

/-- The record the worked example derives (spot 48000, lot 35, rate 2%). -/
def recEx : DerivedRecord :=
  { expiry_raw := "20250828"
    expiry := "2025-08-28"
    strike := some 48000
    type := "C"
    premium_in_rpf := some 10.5
    delta_in_rpf := some 0.4
    worst_RA_per_unit := 300.5
    span_per_lot := 10517.5
    spot_from_rpf := some 48000
    lot_size := 35
    notional := some 1680000
    exposures := [("exposure_2.0000_pct", some 33600)]
    totals := [("total_2.0000_pct", some 44117.5)] }

/-- A `<phy>` underlying entry carrying a parsed lot-size alias of 50. -/
def phyEx50 : XNode :=
  .mk "phy" none [.mk "p" (some "48000") [], .mk "m" (some "50") []]

/-- A portfolio block whose `oopPf` is only findable by the direct tag search
(its own `pfCode` is a different symbol). -/
def nodeO : XNode :=
  .mk "oopPf" none [.mk "pfCode" (some "NIFTY") [], .mk "series" (some "o") []]

/-- A direct clearing child matching the symbol by `pfCode`, with a `series`
child but a non-portfolio tag. -/
def nodeA : XNode :=
  .mk "pf" none [.mk "pfCode" (some "BANKNIFTY") [], .mk "series" (some "a") []]

/-- A clearing subtree where the earlier strategies resolve `oopPf` to
`nodeO` while `phyPf` stays missing: the child scan then replaces the
already-resolved options portfolio with `nodeA`. -/
def clearingEx : XNode := .mk "clearingOrg" none [nodeO, nodeA]

/-- An options portfolio with one `<series>` that has no `<opt>` children. -/
def oopEmptySeries : XNode := .mk "oopPf" none [.mk "series" (some "s") []]

/-- A properly tagged options portfolio matching the symbol. -/
def oopP : XNode :=
  .mk "oopPf" none [.mk "pfCode" (some "BANKNIFTY") [], .mk "series" (some "s") []]

/-- A properly tagged underlying portfolio matching the symbol. -/
def phyP : XNode :=
  .mk "phyPf" none [.mk "pfCode" (some "BANKNIFTY") [], .mk "phy" none []]

/-- A clearing subtree where both portfolios resolve before the child scan:
the scan is not applied, even though `nodeA` would match it. -/
def clearingOk : XNode := .mk "clearingOrg" none [oopP, phyP, nodeA]

/-! ### Helper lemmas -/

unseal Rat.add Rat.mul Rat.inv Rat.sub Rat.ofScientific

theorem foldl_min_mem (t : List ℚ) (a : ℚ) : t.foldl min a ∈ a :: t := by
  induction t generalizing a with
  | nil => simp
  | cons c t ih =>
    simp only [List.foldl_cons]
    rcases List.mem_cons.mp (ih (min a c)) with h1 | h1
    · rcases min_choice a c with h2 | h2
      · rw [h1, h2]; exact List.mem_cons_self _ _
      · rw [h1, h2]; exact List.mem_cons_of_mem _ (List.mem_cons_self _ _)
    · exact List.mem_cons_of_mem _ (List.mem_cons_of_mem _ h1)

theorem foldl_min_le (t : List ℚ) (a : ℚ) : ∀ x ∈ a :: t, t.foldl min a ≤ x := by
  induction t generalizing a with
  | nil =>
    intro x hx
    rw [List.mem_singleton.mp hx]
    exact le_refl _
  | cons c t ih =>
    intro x hx
    simp only [List.foldl_cons]
    rcases List.mem_cons.mp hx with rfl | hx1
    · exact le_trans (ih (min x c) _ (List.mem_cons_self _ _)) (min_le_left _ _)
    rcases List.mem_cons.mp hx1 with rfl | hx2
    · exact le_trans (ih (min a x) _ (List.mem_cons_self _ _)) (min_le_right _ _)
    · exact ih (min a c) x (List.mem_cons_of_mem _ hx2)

theorem filterMap_length_lt {α β : Type} (f : α → Option β) (l : List α) (a : α)
    (ha : a ∈ l) (hf : f a = none) : (l.filterMap f).length < l.length := by
  induction l with
  | nil => cases ha
  | cons b l ih =>
    rcases List.mem_cons.mp ha with rfl | ha1
    · rw [List.filterMap_cons, hf]
      exact Nat.lt_succ_of_le (List.length_filterMap_le f l)
    · rw [List.filterMap_cons]
      cases f b with
      | none => exact Nat.lt_succ_of_lt (ih ha1)
      | some y => simpa using Nat.succ_lt_succ (ih ha1)

/-- Characterization of a successful option derivation: the `<ra>` child
exists, at least one scenario value survives coercion, and the record is the
literal built on source lines 210–224. -/
theorem deriveOpt_some (spot : Option ℚ) (lot : ℤ) (rates : List ℚ) (er en : String)
    (opt : XNode) (rec : DerivedRecord) (h : deriveOpt spot lot rates er en opt = some rec) :
    ∃ ra v vs, findChild opt "ra" = some ra
      ∧ coerceValues ((findallDirect ra "a").map XNode.text) = v :: vs
      ∧ rec =
        { expiry_raw := er
          expiry := en
          strike := safe_float (stripS ((findtext opt "k").getD ""))
          type := stripS ((findtext opt "o").getD "")
          premium_in_rpf := safe_float ((findtext opt "p").getD "")
          delta_in_rpf := safe_float ((findtext opt "d").getD "")
          worst_RA_per_unit := |vs.foldl min v|
          span_per_lot := |vs.foldl min v| * (lot : ℚ)
          spot_from_rpf := spot
          lot_size := lot
          notional := spot.map (fun s => s * (lot : ℚ))
          exposures := rates.map (fun r =>
            (expLabel r, (spot.map (fun s => s * (lot : ℚ))).map (fun n => n * r)))
          totals := rates.map (fun r =>
            (totLabel r, (spot.map (fun s => s * (lot : ℚ))).map
              (fun n => |vs.foldl min v| * (lot : ℚ) + n * r))) } := by
  simp only [deriveOpt] at h
  split at h
  · exact Option.noConfusion h
  next ra hra =>
    split at h
    · exact Option.noConfusion h
    next v vs hv =>
      refine ⟨ra, v, vs, hra, hv, ?_⟩
      injection h with h
      exact h.symm

theorem optValues_eq_of_ra (opt ra : XNode) (hra : findChild opt "ra" = some ra) :
    optValues opt = coerceValues ((findallDirect ra "a").map XNode.text) := by
  unfold optValues
  rw [hra]

/-! ### Claim theorems -/

/-- C1: in every emitted record, `span_per_lot` (the margin base) equals
`worst_RA_per_unit × lot_size`; `notional` is `spot × lot_size` when spot is
known; each configured rate's exposure is `notional × r` and its total is
`span_per_lot + exposure`; when spot is unknown (`none`) every notional,
exposure and total field is null — all captured by `Option.map` over `spot`. -/
theorem C1_margin_exposure_totals (spot : Option ℚ) (lot : ℤ) (rates : List ℚ)
    (er en : String) (opt : XNode) (rec : DerivedRecord)
    (h : deriveOpt spot lot rates er en opt = some rec) :
    rec.span_per_lot = rec.worst_RA_per_unit * (lot : ℚ)
    ∧ rec.lot_size = lot
    ∧ rec.spot_from_rpf = spot
    ∧ rec.notional = spot.map (fun s => s * (lot : ℚ))
    ∧ rec.exposures = rates.map (fun r => (expLabel r, spot.map (fun s => s * (lot : ℚ) * r)))
    ∧ rec.totals = rates.map (fun r =>
        (totLabel r, spot.map (fun s => rec.span_per_lot + s * (lot : ℚ) * r))) := by
  obtain ⟨ra, v, vs, hra, hv, rfl⟩ := deriveOpt_some spot lot rates er en opt rec h
  refine ⟨rfl, rfl, rfl, rfl, ?_, ?_⟩
  · show rates.map _ = rates.map _
    congr 1
    funext r
    cases spot <;> simp
  · show rates.map _ = rates.map _
    congr 1
    funext r
    cases spot <;> simp

/-- C1 witness: the spec's worked example — scenario values
`[-120.0, 50.0, -300.5, 75.0]`, spot 48000, lot 35, rate 2% give margin base
10517.5, notional 1680000, exposure 33600, total 44117.5. -/
theorem C1_margin_exposure_totals_witness :
    deriveOpt (some 48000) 35 [(0.02 : ℚ)] "20250828" "2025-08-28" optEx = some recEx
    ∧ (recEx.span_per_lot = recEx.worst_RA_per_unit * ((35 : ℤ) : ℚ)
       ∧ recEx.lot_size = 35
       ∧ recEx.spot_from_rpf = some 48000
       ∧ recEx.notional = (some (48000 : ℚ)).map (fun s => s * ((35 : ℤ) : ℚ))
       ∧ recEx.exposures = [(0.02 : ℚ)].map (fun r =>
           (expLabel r, (some (48000 : ℚ)).map (fun s => s * ((35 : ℤ) : ℚ) * r)))
       ∧ recEx.totals = [(0.02 : ℚ)].map (fun r =>
           (totLabel r, (some (48000 : ℚ)).map
             (fun s => recEx.span_per_lot + s * ((35 : ℤ) : ℚ) * r)))) :=
  ⟨by decide,
   C1_margin_exposure_totals (some 48000) 35 [(0.02 : ℚ)] "20250828" "2025-08-28"
     optEx recEx (by decide)⟩

/-- C2: whenever a record is emitted, its risk array had at least one valid
entry, `worst_RA_per_unit` equals the absolute value of the minimum scenario
value (a genuine minimum: a member that bounds every entry from below), and
it is nonnegative. -/
theorem C2_worst_is_abs_min (spot : Option ℚ) (lot : ℤ) (rates : List ℚ)
    (er en : String) (opt : XNode) (rec : DerivedRecord)
    (h : deriveOpt spot lot rates er en opt = some rec) :
    optValues opt ≠ []
    ∧ isMinOf ((listMin (optValues opt)).getD 0) (optValues opt)
    ∧ rec.worst_RA_per_unit = |(listMin (optValues opt)).getD 0|
    ∧ 0 ≤ rec.worst_RA_per_unit := by
  obtain ⟨ra, v, vs, hra, hv, rfl⟩ := deriveOpt_some spot lot rates er en opt rec h
  have hov : optValues opt = v :: vs := by rw [optValues_eq_of_ra opt ra hra, hv]
  rw [hov]
  refine ⟨by simp, ⟨?_, ?_⟩, ?_, ?_⟩
  · simpa [listMin] using foldl_min_mem vs v
  · simpa [listMin] using foldl_min_le vs v
  · simp [listMin]
  · exact abs_nonneg _

/-- C2 witness: the worked example, minimum scenario value −300.5, worst per
unit 300.5. -/
theorem C2_worst_is_abs_min_witness :
    deriveOpt (some 48000) 35 [(0.02 : ℚ)] "20250828" "2025-08-28" optEx = some recEx
    ∧ (optValues optEx ≠ []
       ∧ isMinOf ((listMin (optValues optEx)).getD 0) (optValues optEx)
       ∧ recEx.worst_RA_per_unit = |(listMin (optValues optEx)).getD 0|
       ∧ 0 ≤ recEx.worst_RA_per_unit) :=
  ⟨by decide,
   C2_worst_is_abs_min (some 48000) 35 [(0.02 : ℚ)] "20250828" "2025-08-28"
     optEx recEx (by decide)⟩

/-- C3: scenario coercion trims, strips thousands separators and parses as a
float, retries after keeping only `0123456789-+.eE` characters, and drops the
value on repeated failure: `"1,234.50"` coerces to `1234.5`, `"N/A"` is
dropped (without affecting neighbouring values), the retry path recovers
`"1234.5cr"`, and the coerced array is never longer than the raw one. -/
theorem C3_value_coercion :
    coerceVal (some "1,234.50") = some (1234.5 : ℚ)
    ∧ coerceVal (some "N/A") = none
    ∧ coerceVal (some "1234.5cr") = some (1234.5 : ℚ)
    ∧ coerceValues [some "-120.0", some "N/A", some "1,234.50"] = [-120, 1234.5]
    ∧ ∀ raws : List (Option String), (coerceValues raws).length ≤ raws.length :=
  ⟨by decide, by decide, by decide, by decide,
   fun raws => List.length_filterMap_le _ _⟩

/-- C4: an option with no `<ra>` child, or whose array is entirely
unparsable, derives no record, and the series' record list is strictly
shorter than its option list — the contract is skipped, never emitted. -/
theorem C4_no_values_skipped (spot : Option ℚ) (lot : ℤ) (rates : List ℚ)
    (s opt : XNode) (hmem : opt ∈ findallDirect s "opt")
    (h : findChild opt "ra" = none ∨ optValues opt = []) :
    deriveOpt spot lot rates (seriesExpiryRaw s) (normalizeExpiry (seriesExpiryRaw s)) opt = none
    ∧ (seriesRecords spot lot rates s).length < (findallDirect s "opt").length := by
  have hnone : ∀ er en, deriveOpt spot lot rates er en opt = none := by
    intro er en
    cases hd : deriveOpt spot lot rates er en opt with
    | none => rfl
    | some rec =>
      obtain ⟨ra, v, vs, hra, hv, -⟩ := deriveOpt_some spot lot rates er en opt rec hd
      rcases h with h | h
      · rw [h] at hra; exact Option.noConfusion hra
      · rw [optValues_eq_of_ra opt ra hra, hv] at h; exact List.noConfusion h
  exact ⟨hnone _ _, filterMap_length_lt _ _ opt hmem (hnone _ _)⟩

theorem lotCand_eq_35 (cand : String) (v : ℤ)
    (hc : (if cand = "" then none
           else match safe_float cand with
                | none => none
                | some q => if 0 < pyInt q then some (35 : ℤ) else none) = some v) :
    v = 35 := by
  split at hc
  · exact Option.noConfusion hc
  · split at hc
    · exact Option.noConfusion hc
    · split at hc
      · injection hc with hc; exact hc.symm
      · exact Option.noConfusion hc

theorem inferLot_cases (phy : XNode) : inferLot phy = none ∨ inferLot phy = some 35 := by
  cases hfind : inferLot phy with
  | none => exact Or.inl rfl
  | some v =>
    have hf2 := hfind
    unfold inferLot at hf2
    obtain ⟨cand, -, hc⟩ := List.exists_of_findSome?_eq_some hf2
    have h35 := lotCand_eq_35 cand v hc
    subst h35
    exact Or.inr rfl

theorem lotSize_eq_35 (pf : Option XNode) : lotSize pf = 35 := by
  unfold lotSize
  cases hp : phyNodeOf pf with
  | none => rfl
  | some phy => rcases inferLot_cases phy with h | h <;> simp [h, FALLBACK_LOT]

/-- C5: the candidate loop substitutes the constant 35 whenever an alias
parses as a positive integer — `inferLot` can only ever produce 35, it does
so on an underlying entry whose alias carries 50, and the final lot size is
35 on every input (the fallback constant being 35 as well). -/
theorem C5_lot_alias_discarded :
    (∀ phy_node : XNode, inferLot phy_node = none ∨ inferLot phy_node = some 35)
    ∧ inferLot phyEx50 = some 35
    ∧ (∀ phy_pf : Option XNode, lotSize phy_pf = 35) :=
  ⟨inferLot_cases, by decide, lotSize_eq_35⟩

/-- C6: the resolved lot size is always positive and every emitted record
carries it in its (non-nullable) `lot_size` field. -/
theorem C6_lot_positive (phy_pf : Option XNode) (spot : Option ℚ) (rates : List ℚ)
    (er en : String) (opt : XNode) (rec : DerivedRecord)
    (h : deriveOpt spot (lotSize phy_pf) rates er en opt = some rec) :
    0 < lotSize phy_pf ∧ rec.lot_size = lotSize phy_pf ∧ 0 < rec.lot_size := by
  have h35 := lotSize_eq_35 phy_pf
  obtain ⟨ra, v, vs, hra, hv, rfl⟩ := deriveOpt_some _ _ _ _ _ _ _ h
  refine ⟨lt_of_lt_of_eq (by decide) h35.symm, rfl, ?_⟩
  show (0 : ℤ) < lotSize phy_pf
  exact lt_of_lt_of_eq (by decide) h35.symm

/-- C6 witness: lot size 35 when no underlying portfolio is found, positive
in the derived record. -/
theorem C6_lot_positive_witness :
    deriveOpt (some 48000) (lotSize none) [(0.02 : ℚ)] "20250828" "2025-08-28" optEx
      = some recEx
    ∧ (0 < lotSize none ∧ recEx.lot_size = lotSize none ∧ 0 < recEx.lot_size) :=
  ⟨by decide,
   C6_lot_positive none (some 48000) [(0.02 : ℚ)] "20250828" "2025-08-28" optEx recEx
     (by decide)⟩

/-- C7: an expiry of exactly 8 digit characters is hyphenated as
`YYYY-MM-DD`, any other expiry is kept unchanged; `"20250828"` becomes
`"2025-08-28"` and `"DEC25"` stays `"DEC25"`; every emitted record carries
the raw expiry and its normalization. -/
theorem C7_expiry_normalization (raw : String) (spot : Option ℚ) (lot : ℤ)
    (rates : List ℚ) (s : XNode) (rec : DerivedRecord)
    (hmem : rec ∈ seriesRecords spot lot rates s) :
    ((∀ c ∈ raw.toList, c.isDigit) ∧ raw.length = 8 →
      normalizeExpiry raw =
        String.mk (raw.toList.take 4) ++ "-" ++ String.mk ((raw.toList.drop 4).take 2)
          ++ "-" ++ String.mk ((raw.toList.drop 6).take 2))
    ∧ (¬ ((∀ c ∈ raw.toList, c.isDigit) ∧ raw.length = 8) → normalizeExpiry raw = raw)
    ∧ normalizeExpiry "20250828" = "2025-08-28"
    ∧ normalizeExpiry "DEC25" = "DEC25"
    ∧ rec.expiry_raw = seriesExpiryRaw s
    ∧ rec.expiry = normalizeExpiry (seriesExpiryRaw s) := by
  refine ⟨?_, ?_, by decide, by decide, ?_, ?_⟩
  · rintro ⟨hd, hl⟩
    have hcond : (raw.toList.all Char.isDigit && raw.toList.length == 8) = true := by
      simp only [Bool.and_eq_true, List.all_eq_true, beq_iff_eq]
      exact ⟨hd, hl⟩
    unfold normalizeExpiry
    rw [if_pos hcond]
  · intro hn
    have hcond : ¬ ((raw.toList.all Char.isDigit && raw.toList.length == 8) = true) := by
      intro hc
      simp only [Bool.and_eq_true, List.all_eq_true, beq_iff_eq] at hc
      exact hn hc
    unfold normalizeExpiry
    rw [if_neg hcond]
  · obtain ⟨opt, -, hopt⟩ := List.mem_filterMap.mp hmem
    obtain ⟨ra, v, vs, hra, hv, rfl⟩ := deriveOpt_some _ _ _ _ _ _ _ hopt
    rfl
  · obtain ⟨opt, -, hopt⟩ := List.mem_filterMap.mp hmem
    obtain ⟨ra, v, vs, hra, hv, rfl⟩ := deriveOpt_some _ _ _ _ _ _ _ hopt
    rfl

/-- C7 witness: the worked-example series, expiry `"20250828"`. -/
theorem C7_expiry_normalization_witness :
    normalizeExpiry "20250828" =
      String.mk ("20250828".toList.take 4) ++ "-" ++ String.mk (("20250828".toList.drop 4).take 2)
        ++ "-" ++ String.mk (("20250828".toList.drop 6).take 2)
    ∧ recEx.expiry_raw = seriesExpiryRaw seriesEx
    ∧ recEx.expiry = normalizeExpiry (seriesExpiryRaw seriesEx) :=
  ⟨(C7_expiry_normalization "20250828" (some 48000) 35 [(0.02 : ℚ)] seriesEx recEx
      (by decide)).1 (by decide),
   (C7_expiry_normalization "20250828" (some 48000) 35 [(0.02 : ℚ)] seriesEx recEx
      (by decide)).2.2.2.2.1,
   (C7_expiry_normalization "20250828" (some 48000) 35 [(0.02 : ℚ)] seriesEx recEx
      (by decide)).2.2.2.2.2⟩

/-- C4 witness: in `seriesEx`, the option with no risk array is skipped and
only one of three options yields a record. -/
theorem C4_no_values_skipped_witness :
    optNoRa ∈ findallDirect seriesEx "opt"
    ∧ (findChild optNoRa "ra" = none ∨ optValues optNoRa = [])
    ∧ (deriveOpt (some 48000) 35 [(0.02 : ℚ)] (seriesExpiryRaw seriesEx)
         (normalizeExpiry (seriesExpiryRaw seriesEx)) optNoRa = none
       ∧ (seriesRecords (some 48000) 35 [(0.02 : ℚ)] seriesEx).length
           < (findallDirect seriesEx "opt").length) :=
  ⟨by decide, by decide,
   C4_no_values_skipped (some 48000) 35 [(0.02 : ℚ)] seriesEx optNoRa
     (by decide) (by decide)⟩

/-- C8 counterexample: for the configured rate 0.02265 the exposure/total
labels read `2.2600` — `int(r*10000)/100` truncates the percentage rather
than rounding it, so the claimed `"2.27"` appears in neither label. -/
theorem C8_label_truncation_counterexample :
    expLabel 0.02265 = "exposure_2.2600_pct"
    ∧ totLabel 0.02265 = "total_2.2600_pct"
    ∧ occursIn "2.27".toList (expLabel 0.02265).toList = false
    ∧ occursIn "2.27".toList (totLabel 0.02265).toList = false :=
  ⟨by decide, by decide, by decide, by decide⟩

/-- C8 amended: exposure/total column labels carry the rate's percentage
truncated (not rounded) to two decimals and rendered with four decimal
places, so 0.02265 yields `"2.2600"`; for the configured rates the four
generated column names are stable and, together with the fixed header,
pairwise distinct. -/
theorem C8_labels_stable_unique :
    fieldnames EXPOSURE_RATES =
      baseFieldnames ++ ["exposure_2.0000_pct", "total_2.0000_pct",
                         "exposure_2.2600_pct", "total_2.2600_pct"]
    ∧ (fieldnames EXPOSURE_RATES).Nodup :=
  ⟨by decide, by decide⟩

theorem getLast?_or_cons {α : Type} (a : α) (l : List α) :
    (a :: l).getLast? = (l.getLast?).or (some a) := by
  induction l generalizing a with
  | nil => rfl
  | cons b l ih =>
    rw [List.getLast?_cons_cons, ih b]
    cases l.getLast? <;> rfl

theorem foldl_overwrite {α : Type} (f : α → Bool) (l : List α) (st : Option α) :
    l.foldl (fun a p => if f p then some p else a) st = ((l.filter f).getLast?).or st := by
  induction l generalizing st with
  | nil => rfl
  | cons c l ih =>
    simp only [List.foldl_cons, List.filter_cons]
    by_cases h : f c
    · rw [if_pos h, if_pos h, ih, getLast?_or_cons]
      cases (l.filter f).getLast? <;> rfl
    · rw [if_neg h, if_neg h, ih]

theorem childScan_split (cs : List XNode) (st : Option XNode × Option XNode) :
    cs.foldl
      (fun st p =>
        if childMatches p then
          if (findChild p "series").isSome then (some p, st.2)
          else if (findChild p "phy").isSome then (st.1, some p)
          else st
        else st) st
    = (cs.foldl (fun a p =>
         if childMatches p && (findChild p "series").isSome then some p else a) st.1,
       cs.foldl (fun b p =>
         if childMatches p && (!(findChild p "series").isSome && (findChild p "phy").isSome)
         then some p else b) st.2) := by
  induction cs generalizing st with
  | nil => rfl
  | cons q cs ih =>
    simp only [List.foldl_cons]
    rw [ih]
    by_cases h1 : childMatches q
    · by_cases h2 : (findChild q "series").isSome
      · simp [h1, h2]
      · by_cases h3 : (findChild q "phy").isSome <;> simp [h1, h2, h3]
    · simp [h1]

/-- C9 counterexample: in `clearingEx` the earlier strategies resolve the
options portfolio (to `nodeO`, via the direct tag search) while the
underlying portfolio is missing; the child-scan fallback nevertheless runs
and replaces the already-resolved options portfolio with `nodeA`. -/
theorem C9_fallback_replaces_counterexample :
    (locatePre clearingEx).1 = some nodeO
    ∧ (locatePre clearingEx).2 = none
    ∧ (locate clearingEx).1 = some nodeA
    ∧ nodeA ≠ nodeO :=
  ⟨by decide, by decide, by decide, by decide⟩

/-- C9 amended: the child-scan fallback runs exactly when the options or the
underlying portfolio is still unresolved (so an options portfolio found
together with an underlying portfolio is never replaced); when it runs,
every matching direct child with a `series` child overwrites the options
slot (last match wins, even over an options portfolio resolved earlier) and
every matching child without `series` but with a `phy` child likewise
overwrites the underlying slot. -/
theorem C9_fallback_conditions (c : XNode) :
    ((locatePre c).1.isSome ∧ (locatePre c).2.isSome → locate c = locatePre c)
    ∧ ((locatePre c).1 = none ∨ (locatePre c).2 = none →
        locate c = childScan c (locatePre c))
    ∧ ∀ st : Option XNode × Option XNode,
        (childScan c st).1 =
          ((c.children.filter (fun p =>
             childMatches p && (findChild p "series").isSome)).getLast?).or st.1
        ∧ (childScan c st).2 =
          ((c.children.filter (fun p =>
             childMatches p && (!(findChild p "series").isSome
               && (findChild p "phy").isSome))).getLast?).or st.2 := by
  refine ⟨?_, ?_, ?_⟩
  · rintro ⟨h1, h2⟩
    cases ho : (locatePre c).1 with
    | none => rw [ho] at h1; exact absurd h1 (by simp)
    | some o =>
      cases hp : (locatePre c).2 with
      | none => rw [hp] at h2; exact absurd h2 (by simp)
      | some p =>
        simp only [locate]
        rw [ho, hp]
        simp
  · intro h
    simp only [locate]
    have hcond : ((locatePre c).1.isNone || (locatePre c).2.isNone) = true := by
      rcases h with h | h <;> rw [h] <;> simp
    rw [if_pos hcond]
  · intro st
    unfold childScan
    rw [childScan_split]
    exact ⟨foldl_overwrite _ _ _, foldl_overwrite _ _ _⟩

/-- C9 amended witness: the fallback is applied on `clearingEx` (underlying
missing) and not applied on `clearingOk` (both portfolios resolved). -/
theorem C9_fallback_conditions_witness :
    (locatePre clearingEx).2 = none
    ∧ locate clearingEx = childScan clearingEx (locatePre clearingEx)
    ∧ locate clearingOk = locatePre clearingOk :=
  ⟨by decide,
   (C9_fallback_conditions clearingEx).2.1 (Or.inr (by decide)),
   (C9_fallback_conditions clearingOk).1 ⟨by decide, by decide⟩⟩

/-- C10: record extraction aborts with the fatal no-series error exactly when
the resolved options portfolio has no direct `<series>` children; a series
with zero contracts still yields a successful — possibly empty — record
set. -/
theorem C10_empty_series_fatal (oop_pf : XNode) (phy_pf : Option XNode) (rates : List ℚ) :
    (extractRecords oop_pf phy_pf rates
        = .error "No <series> nodes found under BANKNIFTY oopPf"
      ↔ findallDirect oop_pf "series" = [])
    ∧ extractRecords oopEmptySeries none EXPOSURE_RATES = .ok [] := by
  constructor
  · constructor
    · intro h
      by_cases hs : (findallDirect oop_pf "series").isEmpty
      · exact List.isEmpty_iff.mp hs
      · exfalso
        unfold extractRecords at h
        rw [if_neg hs] at h
        exact Except.noConfusion h
    · intro h
      unfold extractRecords
      rw [if_pos]
      rw [h]
      rfl
  · rfl

/-- C10 witness: an options portfolio with no series children aborts with the
fatal error. -/
theorem C10_empty_series_fatal_witness :
    extractRecords (XNode.mk "oopPf" none []) none EXPOSURE_RATES
      = .error "No <series> nodes found under BANKNIFTY oopPf" :=
  ((C10_empty_series_fatal (XNode.mk "oopPf" none []) none EXPOSURE_RATES).1).mpr rfl

end SpanExtract
